import Mathlib

/-!
Verification of the agent control loop of `artificial-agentics`.

The development shallowly embeds the pure control logic of the repository's
agents: the team-manager state-machine nodes (`agentNode`, `toolsNode`,
`formatResponseNode`, `shouldContinue` from
`src/teams/development/team-manager.ts`), the message chunking and
context-budget eviction helpers defined inside `agentNode`, the research
voyager's transition predicate (`src/agents/research/voyager.ts`), the
top-level result extraction of `completePlan` / `answerQuestion` /
`addFeature`, and the shared token-admission bucket.

JavaScript strings are modelled as `List Char` (one element per UTF-16 code
unit); `Math.ceil(n / 4)` on naturals is `(n + 3) / 4`; JS values that may be
`null`/`undefined` are modelled with `Option`; code paths that would raise a
`TypeError` (indexing the last element of an empty array and dereferencing it)
return `none`.  Model calls and tool executions are external collaborators and
enter the embedding as explicit parameters (`response : Message`,
`Tool.run : String → Except String String`, `validated : Option (List Char)`).
-/

/-- A character written by code point, for characters the source quotes inside
string literals: the backtick of a fenced code block and the two braces. -/
def backtickChar : Char := Char.ofNat 96

def lbraceChar : Char := Char.ofNat 123

def rbraceChar : Char := Char.ofNat 125

def quoteChar : Char := Char.ofNat 34

def backslashChar : Char := Char.ofNat 92

/-- Message roles, as in `@langchain/core/messages`: `SystemMessage`,
`HumanMessage`, `AIMessage` and tool-role messages. -/
inductive Role
  | system
  | user
  | assistant
  | tool
deriving DecidableEq

/-- A tool call requested by an assistant message: a tool name, a structured
argument payload (kept abstract as a string) and the identifier that the
produced tool message must reference. -/
structure ToolCall where
  name : String
  args : String
  id : String
deriving DecidableEq

/-- A conversation message.  `tool_calls` is empty for a JS message whose
`tool_calls` field is absent; `tool_call_id` is `none` except on tool-role
messages. -/
structure Message where
  role : Role
  content : List Char
  tool_calls : List ToolCall
  tool_call_id : Option String
deriving DecidableEq

def systemMessageOf (content : List Char) : Message :=
  Message.mk Role.system content [] none

def humanMessageOf (content : List Char) : Message :=
  Message.mk Role.user content [] none

def aiMessageOf (content : List Char) (calls : List ToolCall) : Message :=
  Message.mk Role.assistant content calls none

/-- JSON string escaping performed by `JSON.stringify`, for the characters
this model handles. -/
def jsonEscapeChar (c : Char) : List Char :=
  if c = quoteChar then [backslashChar, quoteChar]
  else if c = backslashChar then [backslashChar, backslashChar]
  else if c = '\n' then [backslashChar, 'n']
  else [c]

/-- `JSON.stringify` of a plain string value. -/
def jsonStringifyChars (v : List Char) : List Char :=
  quoteChar :: (v.flatMap jsonEscapeChar) ++ [quoteChar]

/-- The token estimator defined inside `agentNode`:
`Math.ceil(totalCharacters / 4)` where `totalCharacters` is accumulated by a
`reduce` over the messages (`msg.content?.length || 0`). -/
def estimateTokens (msgs : List Message) : Nat :=
  ((msgs.foldl (fun acc m => acc + m.content.length) 0) + 3) / 4

/-- JS `content.lastIndexOf(c, pos)` for a one-character search string: the
largest index `k ≤ pos` at which `c` occurs in `content`, or `-1` when there
is none. -/
def jsLastIndexOf (content : List Char) (c : Char) (pos : Nat) : Int :=
  match ((List.range (min (pos + 1) content.length)).filter
      (fun k => content.getD k quoteChar = c)).getLast? with
  | some k => (k : Int)
  | none => -1

/-- The candidate natural break point of `chunkMessage`:
`Math.max(lastNewline, lastPeriod, lastSpace)` looking backwards from
`endIndex`. -/
def breakPointAt (content : List Char) (endIndex : Nat) : Int :=
  max (jsLastIndexOf content '\n' endIndex)
    (max (jsLastIndexOf content '.' endIndex) (jsLastIndexOf content ' ' endIndex))

/-- The chunk end chosen by one iteration of the `chunkMessage` loop:
`endIndex = min(startIndex + maxChars, content.length)`, adjusted to
`breakPoint + 1` when a natural boundary lies strictly past
`startIndex + maxChars * 0.5` (with `maxChars = maxTokens * 4` even, the
JS `* 0.5` is the exact integer half). -/
def chunkEndAt (content : List Char) (maxTokens startIndex : Nat) : Nat :=
  if min (startIndex + maxTokens * 4) content.length < content.length then
    if (startIndex : Int) + (maxTokens * 4 : Nat) / 2 <
        breakPointAt content (min (startIndex + maxTokens * 4) content.length) then
      (breakPointAt content (min (startIndex + maxTokens * 4) content.length)).toNat + 1
    else min (startIndex + maxTokens * 4) content.length
  else min (startIndex + maxTokens * 4) content.length

/-- The `chunkSuffix` label computed by the `chunkMessage` loop: chunks after
the first are labeled `[Chunk floor(startIndex / maxChars) + 1]`, the first
chunk is labeled `[Chunk 1]` only when more content follows it. -/
def chunkSuffix (content : List Char) (maxTokens startIndex chunkEnd : Nat) : List Char :=
  if 0 < startIndex then
    (" [Chunk " ++ toString (startIndex / (maxTokens * 4) + 1) ++ "]").toList
  else if chunkEnd < content.length then (" [Chunk 1]").toList
  else []

/-- The `while (startIndex < content.length)` loop of `chunkMessage`, with the
per-iteration pair of computed chunk content (`content.substring(startIndex,
chunkEnd)`) and suffix label.  The loop is driven by an explicit fuel; each
iteration advances `startIndex` to `chunkEndAt`, and `content.length` fuel is
enough (proved below). -/
def chunkPiecesLoop (content : List Char) (maxTokens : Nat) :
    Nat → Nat → List (List Char × List Char)
  | 0, _ => []
  | fuel + 1, startIndex =>
    if startIndex < content.length then
      ((content.drop startIndex).take (chunkEndAt content maxTokens startIndex - startIndex),
        chunkSuffix content maxTokens startIndex (chunkEndAt content maxTokens startIndex)) ::
        chunkPiecesLoop content maxTokens fuel (chunkEndAt content maxTokens startIndex)
    else []

/-- The chunk contents and suffix labels computed by `chunkMessage`: a message
whose content fits within `maxChars = maxTokens * 4` yields the single
unlabeled piece (the early `return [message]`), otherwise the loop runs. -/
def chunkPieces (content : List Char) (maxTokens : Nat) : List (List Char × List Char) :=
  if content.length ≤ maxTokens * 4 then [(content, [])]
  else chunkPiecesLoop content maxTokens content.length 0

/-- The fields object `new message.constructor(...)` receives: the literal
lists `content: chunkContent + chunkSuffix` first and then spreads
`...message`.  In a JS object literal later entries win, and the spread
supplies the original `message.content` after the explicit `content:` entry,
so the computed chunk content is discarded and the constructed message keeps
the full original content. -/
def constructorFields (m : Message) (newContent : List Char) : Message :=
  { m with content := (fun _computed original => original) newContent m.content }

/-- `chunkMessage` from `agentNode` (`team-manager.ts`, identically duplicated
in `code-writer.ts`): splits an over-long message into pieces — but, through
`constructorFields`, every produced piece carries the original content. -/
def chunkMessage (message : Message) (maxTokens : Nat) : List Message :=
  (chunkPieces message.content maxTokens).map
    (fun piece => constructorFields message (piece.1 ++ piece.2))

/-- The `while (tokenEstimate > CHUNK_SIZE && filteredMessages.length > 0)`
eviction loop of `agentNode`: drop the oldest history message (never the
system message) and recompute the estimate over `[system] ++ history`. -/
def evictOldest (sys : Message) (limit : Nat) : List Message → List Message
  | [] => []
  | m :: rest =>
    if limit < estimateTokens (sys :: m :: rest) then evictOldest sys limit rest
    else m :: rest

namespace TeamManager

/-- The `AgentState` annotation of `team-manager.ts`: messages, the `plan`
terminal-result slot (default `null`, modelled `none`), pending tool calls,
the iteration counter and its bound (default 25). -/
structure State where
  messages : List Message
  plan : Option (List Char)
  toolCalls : List ToolCall
  iterations : Nat
  maxIterations : Nat
deriving DecidableEq

/-- The three conditional-edge labels returned by `shouldContinue`:
`"continue"` (to the tools node), `"format"` (to `format_response`) and
`"end"`. -/
inductive Route
  | toTools
  | toFormat
  | toEnd
deriving DecidableEq

/-- The nodes of the compiled state graph, together with the graph's START
and END markers. -/
inductive Node
  | START
  | agent
  | tools
  | format_response
  | END
deriving DecidableEq

/-- The unconditional edges added by `createStateGraph`:
`START → agent`, `tools → agent` and `format_response → END`.  The `agent`
node's outgoing edge is conditional (`shouldContinue`) and `END` has none. -/
def staticEdge : Node → Option Node
  | Node.START => some Node.agent
  | Node.tools => some Node.agent
  | Node.format_response => some Node.END
  | _ => none

/-- The mapping from `shouldContinue`'s label to the next graph node, from the
`addConditionalEdges` call. -/
def conditionalTarget : Route → Node
  | Route.toTools => Node.tools
  | Route.toFormat => Node.format_response
  | Route.toEnd => Node.END

/-- The transition predicate of `team-manager.ts` (`shouldContinue`).  The
iteration-budget check precedes every dereference of the last message, so it
fires even for an empty message list; with the budget not yet reached an
empty message list would dereference `undefined` in JS (`none` here). -/
def shouldContinue (s : State) : Option Route :=
  if s.maxIterations ≤ s.iterations then some Route.toEnd
  else
    match s.messages.getLast? with
    | none => none
    | some last =>
      if last.tool_calls ≠ [] then some Route.toTools
      else if last.content ≠ [] ∧
          (lbraceChar ∈ last.content ∨
            List.IsInfix [backtickChar, backtickChar, backtickChar] last.content) then
        some Route.toFormat
      else some Route.toEnd

/-- The content of the message `agentNode` appends when the iteration budget
is exhausted: `JSON.stringify` of the sentinel plan object. -/
def sentinelContent : List Char :=
  ("\x7b\"plan\":\"Maximum iterations reached. Unable to complete task.\"\x7d").toList

def sentinelMessage : Message := aiMessageOf sentinelContent []

/-- The state transition of `agentNode`: with the budget exhausted it appends
the sentinel AI message and returns (leaving `plan` and `iterations` alone);
otherwise it appends the model's response and increments `iterations`.  The
model call itself is external and enters as `response`; the context budgeting
performed before the call shapes only what is sent to the model, not the
returned state. -/
def agentNode (s : State) (response : Message) : State :=
  if s.maxIterations ≤ s.iterations then
    { s with messages := s.messages ++ [sentinelMessage] }
  else
    { s with messages := s.messages ++ [response], iterations := s.iterations + 1 }

/-- A registered tool: a name and an execution capability that yields a text
result or fails with a descriptive error message. -/
structure Tool where
  name : String
  run : String → Except String String

/-- The body of the `for (const toolCall of toolCalls)` loop of `toolsNode`
for one call: resolve by name against the registry (`this.tools.find`); an
unresolved name contributes nothing (the `if (tool)` has no else branch); a
successful execution contributes one tool-role message with the stringified
result; a throwing execution is caught and contributes one tool-role message
whose content prefixes the error message with `Error executing <name>: `,
tagged with the call's id. -/
def dispatchOne (tools : List Tool) (tc : ToolCall) : List Message :=
  match tools.find? (fun t => t.name == tc.name) with
  | none => []
  | some t =>
    match t.run tc.args with
    | Except.ok result =>
      [Message.mk Role.tool (jsonStringifyChars result.toList) [] (some tc.id)]
    | Except.error e =>
      [Message.mk Role.tool (("Error executing " ++ tc.name ++ ": " ++ e).toList) [] (some tc.id)]

/-- The whole dispatch loop: the per-call message lists, in call order. -/
def dispatchCalls (tools : List Tool) (calls : List ToolCall) : List Message :=
  (calls.map (dispatchOne tools)).flatten

/-- The state transition of `toolsNode`: read the last message's `tool_calls`
(`undefined` dereference — `none` — on an empty message list), dispatch them
and append the produced tool messages. -/
def toolsNode (tools : List Tool) (s : State) : Option State :=
  match s.messages.getLast? with
  | none => none
  | some last => some { s with messages := s.messages ++ dispatchCalls tools last.tool_calls }

/-- The text `JSON.stringify(this.responseSchema.shape)` interpolated into the
corrective message.  The exact serialization of the zod schema object is
produced by the external zod library and is kept as a fixed constant here. -/
def responseSchemaShapeText : List Char :=
  ("\x7b\"plan\":\x7b\x7d\x7d").toList

/-- The corrective instruction appended by the catch branch of
`formatResponseNode`, quoting the expected schema shape. -/
def correctiveContent : List Char :=
  ("The response format is invalid. Please provide a valid JSON response with the required structure: ").toList
    ++ responseSchemaShapeText

/-- The state transition of `formatResponseNode`.  The structured-output model
call, the raw-JSON fallback parse and the zod validation are external; their
combined outcome enters as `validated` (`some plan` when `responseSchema.parse`
succeeded, `none` when anything threw).  On success the validated plan is
written to the `plan` slot and echoed as an AI message; on failure a
corrective instruction is appended and the state is otherwise unchanged. -/
def formatResponseNode (s : State) (validated : Option (List Char)) : State :=
  match validated with
  | some plan =>
    { s with
        plan := some plan,
        messages := s.messages ++
          [aiMessageOf
            (lbraceChar :: ("\"plan\":").toList ++ jsonStringifyChars plan ++ [rbraceChar]) []] }
  | none =>
    { s with messages := s.messages ++ [humanMessageOf correctiveContent] }

/-- The result extraction of `addFeature`: after the graph run it throws
`Failed to generate a plan` when the `plan` slot is falsy (`null` or the empty
string), and proceeds otherwise. -/
def addFeatureOutcome (plan : Option (List Char)) : Except String Bool :=
  if plan.getD [] = [] then Except.error "Failed to generate a plan"
  else Except.ok true

end TeamManager

namespace CodeWriter

/-- The result extraction of `DevelopmentCodeWriter.completePlan`: the
`success` slot defaults to `false` when never populated, and
`if (!success) throw` cannot distinguish that default from a populated
`false`. -/
def completePlanOutcome (success : Option Bool) : Except String Bool :=
  if success.getD false = false then Except.error "Failed to implement the plan"
  else Except.ok true

end CodeWriter

namespace Voyager

/-- The `AgentState` annotation of the research voyager, restricted to the
fields its transition predicate reads. -/
structure State where
  answer : Option (List Char)
  toolCalls : List ToolCall
  completed : Bool
  iterations : Nat
  maxIterations : Nat
deriving DecidableEq

/-- The voyager's conditional-edge labels: `"tools"`, `"agent"`, `"end"`. -/
inductive Route
  | toTools
  | toAgent
  | toEnd
deriving DecidableEq

/-- The transition predicate of `voyager.ts` (`ResearchVoyager.shouldContinue`).
The JS falsiness test `!answer` accepts both `null` and the empty string. -/
def shouldContinue (s : State) : Route :=
  if s.maxIterations ≤ s.iterations then Route.toEnd
  else if s.toolCalls ≠ [] then Route.toTools
  else if s.answer.getD [] = [] then Route.toAgent
  else Route.toEnd

/-- The result extraction of `ResearchVoyager.answerQuestion`: after the graph
run it throws `Failed to generate an answer` when the `answer` slot is falsy
(`null` or the empty string). -/
def answerQuestionOutcome (answer : Option (List Char)) : Except String (List Char) :=
  if answer.getD [] = [] then Except.error "Failed to generate an answer"
  else Except.ok (answer.getD [])

end Voyager

/-- A check for whether an invocation surfaced a hard failure. -/
def isThrow {α : Type} : Except String α → Bool
  | Except.error _ => true
  | Except.ok _ => false

/-- Modelled from the spec: the process-wide `modelTokenBucket` exported by
`model.ts` is imported and polled by the voyager but its implementation is not
among the provided sources.  Following spec §3 and §4.1: a capacity, a current
available amount and a refill rate in tokens per second, with amounts kept in
whole tokens. -/
structure TokenBucket where
  capacity : Nat
  available : Nat
  rate : Nat
deriving DecidableEq

/-- Modelled from the spec: `take(amount) -> wait_ms`.  If enough tokens are
available the amount is deducted and `0` is returned; otherwise the bucket is
unchanged and the wait `ceil((amount - available) / rate * 1000)` milliseconds
is returned — `(x * 1000 + rate - 1) / rate` is that ceiling on naturals. -/
def TokenBucket.take (b : TokenBucket) (amount : Nat) : Nat × TokenBucket :=
  if amount ≤ b.available then
    (0, { b with available := b.available - amount })
  else
    (((amount - b.available) * 1000 + b.rate - 1) / b.rate, b)

/-- A state whose iteration budget is exhausted, with the `plan` slot never
populated. -/
def exhaustedState : TeamManager.State :=
  TeamManager.State.mk [humanMessageOf ("task").toList] none [] 25 25

/-- A state in the middle of its iteration budget. -/
def activeState : TeamManager.State :=
  TeamManager.State.mk [humanMessageOf ("task").toList] none [] 3 25

/-- A generic assistant response standing in for a model call's result. -/
def modelResponse : Message := aiMessageOf ("ok").toList []

/-- A registered tool whose execution always throws. -/
def witFailTool : TeamManager.Tool :=
  TeamManager.Tool.mk "write_file" (fun _args => Except.error "boom")

/-- An over-long message for the chunking bug: nine characters against a
four-character cap, with a period at index 4. -/
def oversizedMessage : Message := humanMessageOf ("aaaa.bbbb").toList

def witSys : Message := systemMessageOf (List.replicate 20 's')

def witHistory : List Message :=
  [humanMessageOf (List.replicate 28 'h'),
    aiMessageOf (List.replicate 28 'i') [],
    humanMessageOf (List.replicate 28 'j')]

/-- Each iteration of the `chunkMessage` loop advances: the chosen chunk end
is strictly greater than the chunk start (for a positive chunk capacity). -/
theorem chunkEndAt_progress (content : List Char) (maxTokens startIndex : Nat)
    (hm : 0 < maxTokens) (hs : startIndex < content.length) :
    startIndex < chunkEndAt content maxTokens startIndex := by
  unfold chunkEndAt
  split
  · split
    · omega
    · omega
  · omega

/-- The fuel driving `chunkPiecesLoop` is irrelevant once it covers the
remaining content length. -/
theorem chunkPiecesLoop_fuel (content : List Char) (maxTokens : Nat) (hm : 0 < maxTokens) :
    ∀ f1 f2 startIndex : Nat, content.length - startIndex ≤ f1 →
      content.length - startIndex ≤ f2 →
      chunkPiecesLoop content maxTokens f1 startIndex =
        chunkPiecesLoop content maxTokens f2 startIndex := by
  intro f1
  induction f1 with
  | zero =>
    intro f2 s h1 h2
    have hs : ¬ s < content.length := by omega
    cases f2 with
    | zero => rfl
    | succ k => simp [chunkPiecesLoop, hs]
  | succ n ih =>
    intro f2 s h1 h2
    cases f2 with
    | zero =>
      have hs : ¬ s < content.length := by omega
      simp [chunkPiecesLoop, hs]
    | succ k =>
      by_cases hs : s < content.length
      · have hprog := chunkEndAt_progress content maxTokens s hm hs
        simp only [chunkPiecesLoop, if_pos hs]
        rw [ih k (chunkEndAt content maxTokens s) (by omega) (by omega)]
      · simp [chunkPiecesLoop, hs]

/-- Claim C10: `chunkMessage` terminates for every input message and every
positive chunk capacity — each loop iteration chooses a chunk end strictly
greater than the chunk start, so the start index strictly increases until it
reaches the content length (`content.length` fuel is exact, and any larger
fuel computes the same pieces); and a message whose content fits within the
cap is returned unchanged as a single-element list. -/
theorem chunkMessage_terminates (maxTokens : Nat) (hm : 0 < maxTokens) :
    (∀ (content : List Char) (startIndex : Nat), startIndex < content.length →
      startIndex < chunkEndAt content maxTokens startIndex) ∧
    (∀ (content : List Char) (f1 f2 startIndex : Nat),
      content.length - startIndex ≤ f1 → content.length - startIndex ≤ f2 →
      chunkPiecesLoop content maxTokens f1 startIndex =
        chunkPiecesLoop content maxTokens f2 startIndex) ∧
    (∀ m : Message, m.content.length ≤ maxTokens * 4 →
      chunkMessage m maxTokens = [m]) := by
  refine ⟨fun content s hs => chunkEndAt_progress content maxTokens s hm hs,
    fun content f1 f2 s h1 h2 => chunkPiecesLoop_fuel content maxTokens hm f1 f2 s h1 h2,
    fun m hfit => ?_⟩
  simp [chunkMessage, chunkPieces, hfit, constructorFields]

/-- Claim C10 witness: a five-character message under a one-token
(four-character) cap makes progress at index 0; fuel 5 and fuel 50 agree; and
a message that fits the cap is returned unchanged. -/
theorem chunkMessage_terminates_witness :
    (0 < chunkEndAt ("a.cde").toList 1 0) ∧
    chunkPiecesLoop ("a.cde").toList 1 5 0 = chunkPiecesLoop ("a.cde").toList 1 50 0 ∧
    chunkMessage modelResponse 1 = [modelResponse] :=
  ⟨(chunkMessage_terminates 1 (by decide)).1 ("a.cde").toList 0 (by decide),
    (chunkMessage_terminates 1 (by decide)).2.1 ("a.cde").toList 5 50 0 (by decide) (by decide),
    (chunkMessage_terminates 1 (by decide)).2.2 modelResponse (by decide)⟩

/-- Claim C1: the object-literal spread bug in `chunkMessage`.  On a
nine-character message against a four-character cap the loop computes the two
lossless pieces `aaaa.` and `bbbb` with their suffix labels, but the
constructed chunks both carry the full original content (the `...message`
spread overrides the computed `content:` entry), so concatenating the returned
chunk contents does not reproduce the original content. -/
theorem chunkMessage_discards_chunk_content :
    chunkMessage oversizedMessage 1 = [oversizedMessage, oversizedMessage] ∧
    ((chunkMessage oversizedMessage 1).map Message.content).flatten ≠
      oversizedMessage.content ∧
    (chunkPieces oversizedMessage.content 1).map Prod.fst =
      [("aaaa.").toList, ("bbbb").toList] ∧
    ((chunkPieces oversizedMessage.content 1).map Prod.fst).flatten =
      oversizedMessage.content ∧
    (chunkPieces oversizedMessage.content 1).map Prod.snd =
      [(" [Chunk 1]").toList, (" [Chunk 2]").toList] := by decide

/-- The eviction loop's unconditional postcondition: it stops at or below the
limit or only once the history is empty, and what it keeps is a suffix of the
history it was given (oldest-first removal, system message untouched). -/
theorem evictOldest_spec (sys : Message) (limit : Nat) :
    ∀ history : List Message,
      (estimateTokens (sys :: evictOldest sys limit history) ≤ limit ∨
        evictOldest sys limit history = []) ∧
      (evictOldest sys limit history).IsSuffix history
  | [] => ⟨Or.inr rfl, List.suffix_refl []⟩
  | m :: rest => by
    by_cases hc : limit < estimateTokens (sys :: m :: rest)
    · have ih := evictOldest_spec sys limit rest
      simp only [evictOldest, if_pos hc]
      exact ⟨ih.1, ih.2.trans (List.suffix_cons m rest)⟩
    · simp only [evictOldest, if_neg hc]
      exact ⟨Or.inl (Nat.not_lt.mp hc), List.suffix_refl _⟩

/-- Claim C4: for every input whose total token estimate exceeds the soft
target, the eviction loop of `agentNode` removes history messages oldest-first
— the retained messages are a suffix of the history, and the system message is
never touched — and its output either has a token estimate at or below the
target or has emptied the history entirely. -/
theorem budgeter_reaches_target (sys : Message) (limit : Nat) (history : List Message)
    (_h : limit < estimateTokens (sys :: history)) :
    (estimateTokens (sys :: evictOldest sys limit history) ≤ limit ∨
      evictOldest sys limit history = []) ∧
    (evictOldest sys limit history).IsSuffix history :=
  evictOldest_spec sys limit history

/-- Claim C4 witness: a 20-character system message with three 28-character
history messages estimates to 26 tokens against a target of 12; evicting the
two oldest leaves an estimate of 12 ≤ 12 with the newest message retained. -/
theorem budgeter_reaches_target_witness :
    ((estimateTokens (witSys :: evictOldest witSys 12 witHistory) ≤ 12 ∨
      evictOldest witSys 12 witHistory = []) ∧
    (evictOldest witSys 12 witHistory).IsSuffix witHistory) ∧
    evictOldest witSys 12 witHistory = [humanMessageOf (List.replicate 28 'j')] :=
  ⟨budgeter_reaches_target witSys 12 witHistory (by decide), by decide⟩

/-- Claim C2 counterexample: at the iteration bound with the `plan` slot never
populated, running the `agentNode` exhaustion branch and reaching END leaves
the `plan` slot unset (`null`) — it is not set to any sentinel value; the
sentinel text only lands inside an appended message. -/
theorem exhaustion_plan_slot_unset :
    (TeamManager.agentNode exhaustedState modelResponse).plan = none ∧
    TeamManager.shouldContinue (TeamManager.agentNode exhaustedState modelResponse) =
      some TeamManager.Route.toEnd := by decide

/-- Claim C2 (amended): when the iteration counter has reached the bound,
`agentNode` appends the fixed sentinel AI message (whose content is the JSON
text `plan: Maximum iterations reached...`) to the conversation, leaves the
`plan` slot unchanged, the next transition is END, and — when the slot was
never populated — `addFeature` subsequently throws `Failed to generate a
plan`. -/
theorem exhaustion_sentinel_in_message (s : TeamManager.State) (r : Message)
    (h : s.maxIterations ≤ s.iterations) :
    TeamManager.agentNode s r =
      { s with messages := s.messages ++ [TeamManager.sentinelMessage] } ∧
    (TeamManager.agentNode s r).plan = s.plan ∧
    TeamManager.shouldContinue (TeamManager.agentNode s r) =
      some TeamManager.Route.toEnd ∧
    (s.plan = none →
      TeamManager.addFeatureOutcome (TeamManager.agentNode s r).plan =
        Except.error "Failed to generate a plan") := by
  have h1 : TeamManager.agentNode s r =
      { s with messages := s.messages ++ [TeamManager.sentinelMessage] } := by
    simp [TeamManager.agentNode, h]
  refine ⟨h1, by rw [h1], ?_, ?_⟩
  · rw [h1]
    unfold TeamManager.shouldContinue
    simp [h]
  · intro hp
    rw [h1]
    simp [TeamManager.addFeatureOutcome, hp]

/-- Claim C2 witness: the amended statement applied at a concrete exhausted
state. -/
theorem exhaustion_sentinel_in_message_witness :
    TeamManager.agentNode exhaustedState modelResponse =
      { exhaustedState with
          messages := exhaustedState.messages ++ [TeamManager.sentinelMessage] } ∧
    (TeamManager.agentNode exhaustedState modelResponse).plan = exhaustedState.plan ∧
    TeamManager.shouldContinue (TeamManager.agentNode exhaustedState modelResponse) =
      some TeamManager.Route.toEnd ∧
    (exhaustedState.plan = none →
      TeamManager.addFeatureOutcome (TeamManager.agentNode exhaustedState modelResponse).plan =
        Except.error "Failed to generate a plan") :=
  exhaustion_sentinel_in_message exhaustedState modelResponse (by decide)

/-- Claim C3: the token-bucket admission contract.  With enough tokens
available, `take` grants (returns `0`) and deducts exactly `amount`; with too
few, it performs no deduction and returns the minimum wait in milliseconds
until enough tokens will exist at the refill rate — the least `w` with
`(amount - available) * 1000 ≤ w * rate`, i.e. `ceil((amount - available) /
rate * 1000)`. -/
theorem token_bucket_take_contract (b : TokenBucket) (amount : Nat) (hr : 0 < b.rate) :
    (amount ≤ b.available →
      TokenBucket.take b amount = (0, { b with available := b.available - amount })) ∧
    (b.available < amount →
      (TokenBucket.take b amount).2 = b ∧
      (amount - b.available) * 1000 ≤ (TokenBucket.take b amount).1 * b.rate ∧
      ∀ w : Nat, (amount - b.available) * 1000 ≤ w * b.rate →
        (TokenBucket.take b amount).1 ≤ w) := by
  constructor
  · intro h
    simp [TokenBucket.take, h]
  · intro h
    have hna : ¬ amount ≤ b.available := Nat.not_le.mpr h
    simp only [TokenBucket.take, if_neg hna]
    refine ⟨trivial, ?_, ?_⟩
    · have e := Nat.div_add_mod ((amount - b.available) * 1000 + b.rate - 1) b.rate
      have hmod := Nat.mod_lt ((amount - b.available) * 1000 + b.rate - 1) hr
      generalize hq : ((amount - b.available) * 1000 + b.rate - 1) / b.rate = q at e ⊢
      generalize hM : ((amount - b.available) * 1000 + b.rate - 1) % b.rate = M at e hmod
      rw [Nat.mul_comm b.rate q] at e
      omega
    · intro w hw
      have hle : (amount - b.available) * 1000 + b.rate - 1 < (w + 1) * b.rate := by
        have hexp : (w + 1) * b.rate = w * b.rate + b.rate := by ring
        rw [hexp]
        generalize w * b.rate = P at hw ⊢
        omega
      have h2 := (Nat.div_lt_iff_lt_mul hr).mpr hle
      omega

/-- Claim C3 witness: the spec scenario — bucket capacity 100, available 100,
rate 10 tokens/s; `take(100)` grants and empties the bucket; `take(50)` on the
empty bucket returns a 5000 ms wait and deducts nothing. -/
theorem token_bucket_take_contract_witness :
    TokenBucket.take (TokenBucket.mk 100 100 10) 100 = (0, TokenBucket.mk 100 0 10) ∧
    (TokenBucket.take (TokenBucket.mk 100 0 10) 50).2 = TokenBucket.mk 100 0 10 ∧
    (TokenBucket.take (TokenBucket.mk 100 0 10) 50).1 = 5000 :=
  ⟨(token_bucket_take_contract (TokenBucket.mk 100 100 10) 100 (by decide)).1 (by decide),
    ((token_bucket_take_contract (TokenBucket.mk 100 0 10) 50 (by decide)).2 (by decide)).1,
    by decide⟩

/-- Claim C5: for every agent state with `iterations ≥ maxIterations`, the
transition predicate returns END — in both the team manager and the research
voyager — regardless of pending tool calls or of the last message's content
shape. -/
theorem iteration_cap_forces_end (s : TeamManager.State) (v : Voyager.State)
    (h1 : s.maxIterations ≤ s.iterations) (h2 : v.maxIterations ≤ v.iterations) :
    TeamManager.shouldContinue s = some TeamManager.Route.toEnd ∧
      Voyager.shouldContinue v = Voyager.Route.toEnd := by
  constructor
  · unfold TeamManager.shouldContinue
    simp [h1]
  · unfold Voyager.shouldContinue
    simp [h2]

/-- Claim C5 witness: a state at the bound whose last message carries both a
pending tool call and content containing a brace still routes to END, as does
a voyager state with a pending tool call. -/
theorem iteration_cap_forces_end_witness :
    TeamManager.shouldContinue
        (TeamManager.State.mk
          [Message.mk Role.assistant [lbraceChar]
            [ToolCall.mk "searx_search" "q" "call_1"] none]
          none [] 25 25) =
      some TeamManager.Route.toEnd ∧
    Voyager.shouldContinue
        (Voyager.State.mk none [ToolCall.mk "click" "3" "call_2"] false 25 25) =
      Voyager.Route.toEnd :=
  iteration_cap_forces_end _ _ (by decide) (by decide)

/-- Claim C6: the tool dispatcher's error behavior.  The dispatch loop is the
per-call message lists concatenated in order; a call whose name resolves to no
registered tool produces no tool-role message at all; a call whose resolved
tool throws produces exactly one tool-role message whose content ends with the
error's description and whose `tool_call_id` equals the originating call's
identifier — and, the dispatcher being a total function, the exception is
never propagated. -/
theorem dispatcher_error_capture (tools : List TeamManager.Tool)
    (calls : List ToolCall) (tc : ToolCall) :
    TeamManager.dispatchCalls tools calls =
      (calls.map (TeamManager.dispatchOne tools)).flatten ∧
    (tools.find? (fun t => t.name == tc.name) = none →
      TeamManager.dispatchOne tools tc = []) ∧
    (∀ (t : TeamManager.Tool) (e : String),
      tools.find? (fun u => u.name == tc.name) = some t →
      t.run tc.args = Except.error e →
      TeamManager.dispatchOne tools tc =
        [Message.mk Role.tool
          (("Error executing " ++ tc.name ++ ": " ++ e).toList) [] (some tc.id)] ∧
      ∃ m : Message, TeamManager.dispatchOne tools tc = [m] ∧
        m.role = Role.tool ∧ m.tool_call_id = some tc.id ∧
        List.IsSuffix e.toList m.content) := by
  refine ⟨rfl, ?_, ?_⟩
  · intro hf
    simp [TeamManager.dispatchOne, hf]
  · intro t e hf hr
    have hone : TeamManager.dispatchOne tools tc =
        [Message.mk Role.tool
          (("Error executing " ++ tc.name ++ ": " ++ e).toList) [] (some tc.id)] := by
      simp [TeamManager.dispatchOne, hf, hr]
    refine ⟨hone, Message.mk Role.tool
      (("Error executing " ++ tc.name ++ ": " ++ e).toList) [] (some tc.id),
      hone, rfl, rfl, ?_⟩
    show List.IsSuffix e.toList (("Error executing " ++ tc.name ++ ": " ++ e).toList)
    have : ("Error executing " ++ tc.name ++ ": " ++ e).toList =
        ("Error executing " ++ tc.name ++ ": ").toList ++ e.toList := by
      simp [String.toList]
    rw [this]
    exact List.suffix_append _ _

/-- Claim C6 witness: against a registry holding only a throwing `write_file`
tool, a call for the unregistered name `ghost` yields no message, and a
`write_file` call yields exactly the error-capturing tool message tagged with
its call id. -/
theorem dispatcher_error_capture_witness :
    TeamManager.dispatchOne [witFailTool] (ToolCall.mk "ghost" "a" "id1") = [] ∧
    (TeamManager.dispatchOne [witFailTool] (ToolCall.mk "write_file" "x" "id2") =
      [Message.mk Role.tool (("Error executing write_file: boom").toList) [] (some "id2")] ∧
      ∃ m : Message,
        TeamManager.dispatchOne [witFailTool] (ToolCall.mk "write_file" "x" "id2") = [m] ∧
        m.role = Role.tool ∧ m.tool_call_id = some "id2" ∧
        List.IsSuffix ("boom").toList m.content) :=
  ⟨(dispatcher_error_capture [witFailTool] [] (ToolCall.mk "ghost" "a" "id1")).2.1 rfl,
    (dispatcher_error_capture [witFailTool] [] (ToolCall.mk "write_file" "x" "id2")).2.2
      witFailTool "boom" rfl rfl⟩

/-- Claim C7 counterexample: the `format_response` node's outgoing edge is the
unconditional `format_response → END` edge of `createStateGraph`, so after a
validation failure control terminates instead of returning to the main loop —
no AGENT retry step can follow. -/
theorem format_failure_terminates_graph :
    TeamManager.staticEdge TeamManager.Node.format_response =
      some TeamManager.Node.END ∧
    TeamManager.Node.END ≠ TeamManager.Node.agent := by decide

/-- Claim C7 (amended): when validation of the parsed model response fails,
`formatResponseNode` appends to the conversation exactly one corrective
instruction message quoting the expected schema, leaves the `plan` slot and
iteration counter unchanged and throws nothing — but the graph's unconditional
`format_response → END` edge then terminates the invocation immediately, so no
further AGENT step retries within the iteration budget. -/
theorem format_failure_appends_corrective (s : TeamManager.State) :
    TeamManager.formatResponseNode s none =
      { s with messages := s.messages ++ [humanMessageOf TeamManager.correctiveContent] } ∧
    (TeamManager.formatResponseNode s none).plan = s.plan ∧
    (TeamManager.formatResponseNode s none).iterations = s.iterations ∧
    TeamManager.staticEdge TeamManager.Node.format_response =
      some TeamManager.Node.END := by
  refine ⟨rfl, rfl, rfl, rfl⟩

/-- Claim C8 counterexample: an invocation whose terminal-result slot holds
the populated boolean `false` still throws — `completePlan`'s falsiness test
cannot distinguish a populated `false` from the never-populated default. -/
theorem populated_false_still_throws :
    CodeWriter.completePlanOutcome (some false) =
      Except.error "Failed to implement the plan" := rfl

/-- Claim C8 (amended): a top-level invocation surfaces a hard failure exactly
when the terminal-result slot's value is falsy — never populated (the default)
or populated with `false` (code writer), the empty string (voyager answer,
team-manager plan); any populated truthy value does not throw. -/
theorem falsy_result_throws (s : Option Bool) (a p : Option (List Char)) :
    (isThrow (CodeWriter.completePlanOutcome s) = true ↔ s.getD false = false) ∧
    (isThrow (Voyager.answerQuestionOutcome a) = true ↔ a.getD [] = []) ∧
    (isThrow (TeamManager.addFeatureOutcome p) = true ↔ p.getD [] = []) := by
  refine ⟨?_, ?_, ?_⟩
  · unfold CodeWriter.completePlanOutcome
    by_cases h : s.getD false = false <;> simp [h, isThrow]
  · unfold Voyager.answerQuestionOutcome
    by_cases h : a.getD [] = [] <;> simp [h, isThrow]
  · unfold TeamManager.addFeatureOutcome
    by_cases h : p.getD [] = [] <;> simp [h, isThrow]

/-- Claim C9 counterexample: the AGENT step taken with the budget already
exhausted does not increment the iteration counter — it leaves it unchanged,
so not every AGENT step increments it exactly once. -/
theorem exhausted_agent_step_does_not_increment :
    (TeamManager.agentNode exhaustedState modelResponse).iterations =
      exhaustedState.iterations ∧
    (TeamManager.agentNode exhaustedState modelResponse).iterations ≠
      exhaustedState.iterations + 1 := by decide

/-- Claim C9 (amended): the iteration counter is monotonically non-decreasing
across every step; an AGENT step below the bound increments it exactly once
(the model call's internal empty-response retries happen within the single
step), an AGENT step at or above the bound leaves it unchanged, and TOOLS and
FORMAT steps always leave it unchanged. -/
theorem iteration_counter_steps (s : TeamManager.State) (r : Message)
    (tools : List TeamManager.Tool) (v : Option (List Char)) :
    (s.iterations < s.maxIterations →
      (TeamManager.agentNode s r).iterations = s.iterations + 1) ∧
    (s.maxIterations ≤ s.iterations →
      (TeamManager.agentNode s r).iterations = s.iterations) ∧
    (∀ s' : TeamManager.State,
      TeamManager.toolsNode tools s = some s' → s'.iterations = s.iterations) ∧
    (TeamManager.formatResponseNode s v).iterations = s.iterations ∧
    s.iterations ≤ (TeamManager.agentNode s r).iterations := by
  refine ⟨?_, ?_, ?_, ?_, ?_⟩
  · intro h
    simp [TeamManager.agentNode, Nat.not_le.mpr h]
  · intro h
    simp [TeamManager.agentNode, h]
  · intro s' hs'
    unfold TeamManager.toolsNode at hs'
    cases he : s.messages.getLast? with
    | none => rw [he] at hs'; exact absurd hs' (by simp)
    | some last =>
      rw [he] at hs'
      have := Option.some.inj hs'
      rw [← this]
  · cases v with
    | none => rfl
    | some plan => rfl
  · unfold TeamManager.agentNode
    split
    · exact Nat.le_refl _
    · exact Nat.le_succ _

/-- Claim C9 witness: an AGENT step below the bound increments 3 to 4, and a
FORMAT step leaves the counter at 3. -/
theorem iteration_counter_steps_witness :
    (TeamManager.agentNode activeState modelResponse).iterations =
      activeState.iterations + 1 ∧
    (TeamManager.formatResponseNode activeState none).iterations =
      activeState.iterations :=
  ⟨(iteration_counter_steps activeState modelResponse [] none).1 (by decide),
    (iteration_counter_steps activeState modelResponse [] none).2.2.2.1⟩
